import Mathlib

/-!
Verification of the SplitShip Pro core against its specification.

The development shallowly embeds the TypeScript sources:

* `app/models/split-plan.server.ts` — `validateRecipientAllocations`,
  `buildFulfillmentInstructions` (pure functions, embedded directly);
* `app/routes/app.api.split-plans.tsx` — the split-plan POST/PUT/DELETE action;
* `app/routes/app.api.split-ops.tsx` — the split-ops action
  (`generate_fulfillment_instructions`, `send_to_3pl`, `retry_3pl`, `ack_3pl`,
  and the `mark_*` lifecycle operations);
* `app/routes/app.api.recipients.tsx` — the recipient POST/PUT/DELETE action;
* the orders-created webhook route;
* the Prisma schema (tables `Recipient`, `SplitPlan`, `SplitAllocation`,
  `SplitAuditEvent`) as Lean structures, with the database a pair of row lists.

Modelling conventions:

* A JavaScript number is embedded as an exact fraction `JsNum` (numerator,
  positive denominator); `Number.isInteger`, `<= 0`, `===` and `+` are the
  corresponding exact-fraction operations.  NaN/Infinity inputs are outside
  the embedding.
* `String.prototype.trim` / `toUpperCase` are embedded as `jsTrim` / `jsToUpper`
  over the character list.
* `JSON.stringify` of an audit-event payload is abstracted by the structured
  `EventPayload` inductive (the event body is the structured snapshot itself).
* Timestamps are abstracted as natural numbers supplied by the caller (`now`);
  `createdAt`/`updatedAt` bookkeeping columns are omitted.
* Prisma row ids generated at insert (cuid) are supplied as explicit arguments;
  the reachability relation requires them fresh, mirroring the primary key.
-/

/-- A JavaScript number, embedded as an exact fraction with a positive
denominator.  JSON numeric literals are such fractions; IEEE rounding beyond
2^53 and NaN/Infinity are outside the embedding. -/
structure JsNum where
  num : Int
  den : Nat
  den_pos : 0 < den
deriving DecidableEq

instance (n : Nat) : OfNat JsNum n := ⟨⟨n, 1, Nat.one_pos⟩⟩

/-- JavaScript `+` on numbers (exact fraction addition, no normalisation). -/
def JsNum.add (a b : JsNum) : JsNum :=
  ⟨a.num * b.den + b.num * a.den, a.den * b.den, Nat.mul_pos a.den_pos b.den_pos⟩

/-- JavaScript `===` on numbers: equality of the represented values. -/
def JsNum.eqb (a b : JsNum) : Bool := a.num * (b.den : Int) == b.num * (a.den : Int)

/-- Check `Number.isInteger`. -/
def JsNum.isInteger (a : JsNum) : Bool := a.num % (a.den : Int) == 0

/-- JavaScript `<= 0` on a number. -/
def JsNum.leZero (a : JsNum) : Bool := decide (a.num ≤ 0)

/-- The value represented by a `JsNum`, as a rational. -/
def JsNum.toRat (a : JsNum) : Rat := (a.num : Rat) / (a.den : Rat)

/-- Combined "is a positive integer" check, as the sources phrase it:
`Number.isInteger(q) && !(q <= 0)`. -/
def JsNum.isPositiveInteger (a : JsNum) : Bool := a.isInteger && !a.leZero

/-- Rendering of a number into an error-message string (template literal
`${q}`); integers render as their decimal numeral. -/
def JsNum.render (a : JsNum) : String :=
  if a.num % (a.den : Int) == 0 then toString (a.num / (a.den : Int))
  else toString a.num ++ "/" ++ toString a.den

/-- Embedding of `String.prototype.trim`, over the character list. -/
def jsTrim (s : String) : String :=
  ⟨((s.data.dropWhile Char.isWhitespace).reverse.dropWhile Char.isWhitespace).reverse⟩

/-- Embedding of `String.prototype.toUpperCase`, over the character list. -/
def jsToUpper (s : String) : String := ⟨s.data.map Char.toUpper⟩

/-- JavaScript falsiness of an optional string (`undefined`, `null` or `""`). -/
def strBlank (s : Option String) : Bool := s.getD "" == ""

/-- JavaScript `x || null` on an optional string: empty strings collapse to null. -/
def orNull (s : Option String) : Option String :=
  match s with
  | some v => if v == "" then none else some v
  | none => none

/-! ### `validateRecipientAllocations` (app/models/split-plan.server.ts) -/

/-- Input allocation shape `RecipientInput` from the models file. -/
structure RecipientInput where
  recipientKey : String
  quantity : JsNum
deriving DecidableEq

/-- Result shape `AllocationValidationResult` from the models file. -/
structure AllocationValidationResult where
  valid : Bool
  expectedQuantity : JsNum
  allocatedQuantity : JsNum
  errors : List String
deriving DecidableEq

def lineQuantityMessage : String := "Line item quantity must be a positive integer."

def emptyAllocationsMessage : String := "At least one recipient allocation is required."

def recipientKeyMessage : String := "Each allocation must include a recipient key."

def recipientQuantityMessage : String := "Each recipient quantity must be a positive integer."

def allocationMismatchMessage (allocated expected : JsNum) : String :=
  "Allocated quantity (" ++ allocated.render ++ ") must equal line item quantity ("
    ++ expected.render ++ ")."

/-- Body of the `allocations.reduce` callback: push the per-allocation errors
and accumulate the quantity sum. -/
def allocationReduceStep (acc : List String × JsNum) (allocation : RecipientInput) :
    List String × JsNum :=
  let afterKey :=
    if jsTrim allocation.recipientKey == "" then acc.1 ++ [recipientKeyMessage] else acc.1
  let afterQuantity :=
    if !allocation.quantity.isInteger || allocation.quantity.leZero then
      afterKey ++ [recipientQuantityMessage]
    else afterKey
  (afterQuantity, acc.2.add allocation.quantity)

/-- Function `validateRecipientAllocations` from app/models/split-plan.server.ts. -/
def validateRecipientAllocations (lineItemQuantity : JsNum)
    (allocations : List RecipientInput) : AllocationValidationResult :=
  let startErrors : List String :=
    (if !lineItemQuantity.isInteger || lineItemQuantity.leZero
      then [lineQuantityMessage] else []) ++
    (if allocations.isEmpty then [emptyAllocationsMessage] else [])
  let reduced := allocations.foldl allocationReduceStep (startErrors, (0 : JsNum))
  let errors :=
    if !(lineItemQuantity.eqb reduced.2)
      then reduced.1 ++ [allocationMismatchMessage reduced.2 lineItemQuantity]
      else reduced.1
  { valid := errors.isEmpty
    expectedQuantity := lineItemQuantity
    allocatedQuantity := reduced.2
    errors := errors }

/-- The error block the reduce callback contributes, allocation by allocation. -/
def allocationRuleErrors : List RecipientInput → List String
  | [] => []
  | allocation :: rest =>
      ((if jsTrim allocation.recipientKey == "" then [recipientKeyMessage] else []) ++
        (if !allocation.quantity.isInteger || allocation.quantity.leZero
          then [recipientQuantityMessage] else [])) ++
      allocationRuleErrors rest

/-- The quantity total the reduce computes (fold of JavaScript `+` from 0). -/
def sumOfQuantities (allocations : List RecipientInput) : JsNum :=
  allocations.foldl (fun s a => s.add a.quantity) (0 : JsNum)

/-! ### Data model (Prisma schema) -/

/-- A `Recipient` row. -/
structure Recipient where
  id : String
  shop : String
  name : String
  email : Option String
  phone : Option String
  addressLine1 : String
  addressLine2 : Option String
  city : String
  province : Option String
  postalCode : String
  countryCode : String
deriving DecidableEq

/-- Address block of a fulfillment instruction (models file). -/
structure InstructionAddress where
  line1 : String
  line2 : Option String
  city : String
  province : Option String
  postalCode : String
  countryCode : String
deriving DecidableEq

/-- Shape `FulfillmentInstruction` from the models file. -/
structure FulfillmentInstruction where
  recipientId : String
  recipientName : String
  quantity : JsNum
  address : InstructionAddress
deriving DecidableEq

/-- An allocation row joined with its recipient, as the split-ops route loads it
(`include: { allocations: { include: { recipient: true } } }`). -/
structure JoinedAllocation where
  quantity : JsNum
  recipient : Recipient
deriving DecidableEq

/-- Function `buildFulfillmentInstructions` from app/models/split-plan.server.ts. -/
def buildFulfillmentInstructions (allocations : List JoinedAllocation) :
    List FulfillmentInstruction :=
  allocations.map fun allocation =>
    { recipientId := allocation.recipient.id
      recipientName := allocation.recipient.name
      quantity := allocation.quantity
      address :=
        { line1 := allocation.recipient.addressLine1
          line2 := allocation.recipient.addressLine2
          city := allocation.recipient.city
          province := allocation.recipient.province
          postalCode := allocation.recipient.postalCode
          countryCode := allocation.recipient.countryCode } }

/-- The 3PL payload contract. -/
structure SplitPayloadContract where
  schemaVersion : String
  idempotencyKey : String
  splitPlanId : String
  shop : String
  orderId : Option String
  cartToken : Option String
  sourceLineGid : String
  lineQuantity : JsNum
  recipients : List FulfillmentInstruction
deriving DecidableEq

/-- Argument object passed to `buildSplitPayloadContract` by the split-ops route. -/
structure SplitPayloadContractArgs where
  idempotencyKey : String
  splitPlanId : String
  shop : String
  orderId : Option String
  cartToken : Option String
  sourceLineGid : String
  lineQuantity : JsNum
  recipients : List FulfillmentInstruction
deriving DecidableEq

/-- Modelled from the spec: `buildSplitPayloadContract` is imported from
app/models/split-plan.server by the split-ops route, but its definition is not
among the source files; per the payload-contract document and spec section 6 it
assembles the field-exact contract, adding the schema-version constant
`2026-03-3pl-v1` to the fields the caller passes. -/
def buildSplitPayloadContract (args : SplitPayloadContractArgs) : SplitPayloadContract :=
  { schemaVersion := "2026-03-3pl-v1"
    idempotencyKey := args.idempotencyKey
    splitPlanId := args.splitPlanId
    shop := args.shop
    orderId := args.orderId
    cartToken := args.cartToken
    sourceLineGid := args.sourceLineGid
    lineQuantity := args.lineQuantity
    recipients := args.recipients }

/-- A `SplitAllocation` row (owning plan implicit: the row is embedded in it). -/
structure Allocation where
  recipientId : String
  quantity : JsNum
deriving DecidableEq

/-- Structured audit-event body: the object the route passes to
`JSON.stringify` for `payloadJson`. -/
inductive EventPayload where
  | createdSnapshot (lineQuantity allocatedQuantity : JsNum)
  | updatedSnapshot (lineQuantity allocatedQuantity : JsNum)
  | instructionsSnapshot (instructions : List FulfillmentInstruction)
  | contractSnapshot (contract : SplitPayloadContract)
  | ackSnapshot (previousStatus : String)
  | statusSnapshot (previousStatus nextStatus : String)
  | webhookSnapshot (orderId cartToken orderName : Option String)
deriving DecidableEq

/-- A `SplitAuditEvent` row, embedded in its owning plan (append-only list,
in insertion order). -/
structure SplitAuditEvent where
  eventType : String
  payload : EventPayload
deriving DecidableEq

/-- A `SplitPlan` row with its owned allocations and audit events. -/
structure SplitPlan where
  id : String
  shop : String
  orderId : Option String
  cartToken : Option String
  sourceLineGid : String
  lineQuantity : JsNum
  status : String
  deliveryStatus : String
  deliveryAttempts : Nat
  lastDeliveryError : Option String
  lastDeliveryAt : Option Nat
  idempotencyKey : Option String
  allocations : List Allocation
  events : List SplitAuditEvent
deriving DecidableEq

/-- The tenant-shared database: recipient rows and split-plan aggregates. -/
structure DB where
  recipients : List Recipient
  plans : List SplitPlan
deriving DecidableEq

/-- Body of a JSON route response. -/
inductive ResponseBody where
  | errorMsg (error : String)
  | errorWithValidation (error : String) (validation : AllocationValidationResult)
  | planResult (splitPlan : SplitPlan)
  | planWithInstructions (splitPlan : SplitPlan) (instructions : List FulfillmentInstruction)
  | planWithContract (splitPlan : SplitPlan) (payload : SplitPayloadContract)
  | recipientResult (recipient : Recipient)
  | deletedResult
  | emptyResponse
deriving DecidableEq

/-- A route response: HTTP status plus JSON body. -/
structure Response where
  status : Nat
  body : ResponseBody
deriving DecidableEq

/-! ### Split-ops route (app/routes/app.api.split-ops.tsx) -/

/-- Request payload of the split-ops route; the operation arrives as an
arbitrary JSON string. -/
structure SplitOpsPayload where
  splitPlanId : Option String
  operation : Option String
deriving DecidableEq

/-- Map `OP_STATUS_MAP` plus the `operation in OP_STATUS_MAP` membership test. -/
def opStatusMap (operation : String) : Option String :=
  if operation == "mark_ready_for_fulfillment" then some "ready_for_fulfillment"
  else if operation == "mark_fulfilled_partial" then some "fulfilled_partial"
  else if operation == "mark_fulfilled_complete" then some "fulfilled_complete"
  else none

/-- Prisma relation join for the allocations of a plan
(`include: { recipient: true }`); referential integrity makes the fallback row
unreachable in states created through the routes. -/
def joinAllocations (db : DB) (allocations : List Allocation) : List JoinedAllocation :=
  allocations.map fun allocation =>
    { quantity := allocation.quantity
      recipient :=
        (db.recipients.find? (fun r => r.id == allocation.recipientId)).getD
          ⟨allocation.recipientId, "", "", none, none, "", none, "", none, "", ""⟩ }

/-- Update `prisma.splitPlan.update` on `where: id`: replace the row with
the id of the updated plan. -/
def updatePlan (db : DB) (updated : SplitPlan) : DB :=
  { db with plans := db.plans.map (fun p => if p.id == updated.id then updated else p) }

/-- The idempotency key the send/retry branch uses:
`splitPlan.idempotencyKey ?? shop:id:(deliveryAttempts + 1)`. -/
def dispatchIdempotencyKey (plan : SplitPlan) : String :=
  plan.idempotencyKey.getD
    (plan.shop ++ ":" ++ plan.id ++ ":" ++ toString (plan.deliveryAttempts + 1))

/-- The contract the send/retry branch builds and logs to the placeholder
sender. -/
def dispatchContract (db : DB) (plan : SplitPlan) : SplitPayloadContract :=
  buildSplitPayloadContract
    { idempotencyKey := dispatchIdempotencyKey plan
      splitPlanId := plan.id
      shop := plan.shop
      orderId := plan.orderId
      cartToken := plan.cartToken
      sourceLineGid := plan.sourceLineGid
      lineQuantity := plan.lineQuantity
      recipients := buildFulfillmentInstructions (joinAllocations db plan.allocations) }

/-- The action of app/routes/app.api.split-ops.tsx. -/
def splitOpsAction (db : DB) (sessionShop : String) (payload : SplitOpsPayload)
    (now : Nat) : DB × Response :=
  if strBlank payload.splitPlanId then
    (db, ⟨400, .errorMsg "splitPlanId is required."⟩)
  else if strBlank payload.operation then
    (db, ⟨400, .errorMsg "operation is required."⟩)
  else
    match db.plans.find?
        (fun p => p.id == payload.splitPlanId.getD "" && p.shop == sessionShop) with
    | none => (db, ⟨404, .errorMsg "Split plan not found."⟩)
    | some splitPlan =>
      if splitPlan.allocations.isEmpty then
        (db, ⟨400, .errorMsg "Split plan has no allocations."⟩)
      else
        let operation := payload.operation.getD ""
        let instructions := buildFulfillmentInstructions (joinAllocations db splitPlan.allocations)
        if operation == "generate_fulfillment_instructions" then
          let updated :=
            { splitPlan with
                status := "ready_for_fulfillment"
                events := splitPlan.events ++
                  [⟨"split_plan.fulfillment_instructions_generated",
                    .instructionsSnapshot instructions⟩] }
          (updatePlan db updated, ⟨200, .planWithInstructions updated instructions⟩)
        else if operation == "send_to_3pl" || operation == "retry_3pl" then
          let contract := dispatchContract db splitPlan
          let updated :=
            { splitPlan with
                deliveryStatus := "sent"
                deliveryAttempts := splitPlan.deliveryAttempts + 1
                lastDeliveryAt := some now
                lastDeliveryError := none
                idempotencyKey := some (dispatchIdempotencyKey splitPlan)
                events := splitPlan.events ++
                  [⟨if operation == "retry_3pl" then "split_plan.delivery_retried"
                    else "split_plan.delivery_sent",
                    .contractSnapshot contract⟩] }
          (updatePlan db updated, ⟨200, .planWithContract updated contract⟩)
        else if operation == "ack_3pl" then
          let updated :=
            { splitPlan with
                deliveryStatus := "acked"
                events := splitPlan.events ++
                  [⟨"split_plan.delivery_acked", .ackSnapshot splitPlan.deliveryStatus⟩] }
          (updatePlan db updated, ⟨200, .planResult updated⟩)
        else
          match opStatusMap operation with
          | none => (db, ⟨400, .errorMsg "Unsupported operation."⟩)
          | some nextStatus =>
            let updated :=
              { splitPlan with
                  status := nextStatus
                  events := splitPlan.events ++
                    [⟨"split_plan." ++ nextStatus,
                      .statusSnapshot splitPlan.status nextStatus⟩] }
            (updatePlan db updated, ⟨200, .planResult updated⟩)

/-! ### Split-plans route (app/routes/app.api.split-plans.tsx) -/

/-- Shape `CreateSplitPlanPayload` of the split-plans route (also used for PUT and
DELETE, which read only `id`). -/
structure CreateSplitPlanPayload where
  id : Option String
  sourceLineGid : String
  lineQuantity : JsNum
  cartToken : Option String
  orderId : Option String
  allocations : Option (List RecipientInput)
deriving DecidableEq

/-- The recipient-existence check shared by POST and PUT: the rows of
`prisma.recipient.findMany({ where: { id: { in: recipientIds }, shop } })`. -/
def foundRecipients (db : DB) (sessionShop : String) (recipientIds : List String) :
    List Recipient :=
  db.recipients.filter (fun r => recipientIds.contains r.id && r.shop == sessionShop)

/-- The row the POST branch creates (`status: "draft"`; delivery columns take
their schema defaults `pending` / 0 / null). -/
def createdPlan (sessionShop : String) (payload : CreateSplitPlanPayload)
    (newPlanId : String) : SplitPlan :=
  { id := newPlanId
    shop := sessionShop
    orderId := orNull payload.orderId
    cartToken := orNull payload.cartToken
    sourceLineGid := payload.sourceLineGid
    lineQuantity := payload.lineQuantity
    status := "draft"
    deliveryStatus := "pending"
    deliveryAttempts := 0
    lastDeliveryError := none
    lastDeliveryAt := none
    idempotencyKey := none
    allocations := (payload.allocations.getD []).map (fun a => ⟨a.recipientKey, a.quantity⟩)
    events := [⟨"split_plan.created",
      .createdSnapshot payload.lineQuantity
        (validateRecipientAllocations payload.lineQuantity
          (payload.allocations.getD [])).allocatedQuantity⟩] }

/-- The update the PUT branch applies to the row whose id the payload names
(allocations replaced wholesale via `deleteMany` + `create`). -/
def putApply (payload : CreateSplitPlanPayload) (p : SplitPlan) : SplitPlan :=
  { p with
      sourceLineGid := payload.sourceLineGid
      lineQuantity := payload.lineQuantity
      cartToken := orNull payload.cartToken
      orderId := orNull payload.orderId
      allocations := (payload.allocations.getD []).map (fun a => ⟨a.recipientKey, a.quantity⟩)
      events := p.events ++ [⟨"split_plan.updated",
        .updatedSnapshot payload.lineQuantity
          (validateRecipientAllocations payload.lineQuantity
            (payload.allocations.getD [])).allocatedQuantity⟩] }

/-- The action of app/routes/app.api.split-plans.tsx. -/
def splitPlansAction (db : DB) (sessionShop : String) (method : String)
    (payload : CreateSplitPlanPayload) (newPlanId : String) : DB × Response :=
  if method == "POST" then
    let validation :=
      validateRecipientAllocations payload.lineQuantity (payload.allocations.getD [])
    if !validation.valid then
      (db, ⟨400, .errorWithValidation "Allocation validation failed." validation⟩)
    else
      let recipientIds := (payload.allocations.getD []).map (fun a => a.recipientKey)
      if (foundRecipients db sessionShop recipientIds).length != recipientIds.length then
        (db, ⟨400, .errorMsg "Some recipients are missing or not accessible for this shop."⟩)
      else
        let splitPlan := createdPlan sessionShop payload newPlanId
        ({ db with plans := db.plans ++ [splitPlan] }, ⟨201, .planResult splitPlan⟩)
  else if method == "PUT" then
    if strBlank payload.id then (db, ⟨400, .errorMsg "Split plan id is required."⟩)
    else
      match db.plans.find?
          (fun p => p.id == payload.id.getD "" && p.shop == sessionShop) with
      | none => (db, ⟨404, .errorMsg "Split plan not found."⟩)
      | some existing =>
        let validation :=
          validateRecipientAllocations payload.lineQuantity (payload.allocations.getD [])
        if !validation.valid then
          (db, ⟨400, .errorWithValidation "Allocation validation failed." validation⟩)
        else
          let recipientIds := (payload.allocations.getD []).map (fun a => a.recipientKey)
          if (foundRecipients db sessionShop recipientIds).length != recipientIds.length then
            (db, ⟨400, .errorMsg "Some recipients are missing or not accessible for this shop."⟩)
          else
            ({ db with plans := (db.plans.map
                (fun p => if p.id == payload.id.getD "" then putApply payload p else p)) },
              ⟨200, .planResult (putApply payload existing)⟩)
  else if method == "DELETE" then
    if strBlank payload.id then (db, ⟨400, .errorMsg "Split plan id is required."⟩)
    else
      match db.plans.find?
          (fun p => p.id == payload.id.getD "" && p.shop == sessionShop) with
      | none => (db, ⟨404, .errorMsg "Split plan not found."⟩)
      | some _ =>
        ({ db with plans := db.plans.filter (fun p => !(p.id == payload.id.getD "")) },
          ⟨200, .deletedResult⟩)
  else
    (db, ⟨405, .errorMsg ("Method " ++ method ++ " not supported.")⟩)

/-! ### Recipients route (app/routes/app.api.recipients.tsx) -/

/-- Shape `RecipientPayload` of the recipients route. -/
structure RecipientPayload where
  id : Option String
  name : String
  email : Option String
  phone : Option String
  addressLine1 : String
  addressLine2 : Option String
  city : String
  province : Option String
  postalCode : String
  countryCode : String
deriving DecidableEq

/-- Normalization step `payload.x?.trim() || null`. -/
def trimOrNull (s : Option String) : Option String :=
  match s with
  | some v => if jsTrim v == "" then none else some (jsTrim v)
  | none => none

/-- The normalized recipient fields (`normalize` in the route). -/
structure NormalizedRecipient where
  name : String
  email : Option String
  phone : Option String
  addressLine1 : String
  addressLine2 : Option String
  city : String
  province : Option String
  postalCode : String
  countryCode : String
deriving DecidableEq

/-- Function `normalize` from the recipients route. -/
def normalizeRecipient (payload : RecipientPayload) : NormalizedRecipient :=
  { name := jsTrim payload.name
    email := trimOrNull payload.email
    phone := trimOrNull payload.phone
    addressLine1 := jsTrim payload.addressLine1
    addressLine2 := trimOrNull payload.addressLine2
    city := jsTrim payload.city
    province := trimOrNull payload.province
    postalCode := jsTrim payload.postalCode
    countryCode := jsToUpper (jsTrim payload.countryCode) }

/-- Function `validate` from the recipients route (`none` = no error). -/
def validateRecipient (n : NormalizedRecipient) : Option String :=
  if n.name == "" || n.addressLine1 == "" || n.city == "" || n.postalCode == ""
      || n.countryCode == "" then
    some "Missing required recipient fields."
  else if n.countryCode.length < 2 || n.countryCode.length > 3 then
    some "countryCode must be 2-3 characters."
  else none

/-- Build a `Recipient` row from normalized fields. -/
def recipientRow (newId sessionShop : String) (n : NormalizedRecipient) : Recipient :=
  { id := newId
    shop := sessionShop
    name := n.name
    email := n.email
    phone := n.phone
    addressLine1 := n.addressLine1
    addressLine2 := n.addressLine2
    city := n.city
    province := n.province
    postalCode := n.postalCode
    countryCode := n.countryCode }

/-- The action of app/routes/app.api.recipients.tsx.  The DELETE branch models
the `P2003` foreign-key failure: deletion is rejected with a 409 when an
allocation still references the recipient. -/
def recipientsAction (db : DB) (sessionShop : String) (method : String)
    (payload : RecipientPayload) (newId : String) : DB × Response :=
  if method == "POST" then
    let normalized := normalizeRecipient payload
    match validateRecipient normalized with
    | some e => (db, ⟨400, .errorMsg e⟩)
    | none =>
      let recipient := recipientRow newId sessionShop normalized
      ({ db with recipients := db.recipients ++ [recipient] },
        ⟨201, .recipientResult recipient⟩)
  else if method == "PUT" then
    if strBlank payload.id then (db, ⟨400, .errorMsg "Recipient id is required."⟩)
    else
      match db.recipients.find?
          (fun r => r.id == payload.id.getD "" && r.shop == sessionShop) with
      | none => (db, ⟨404, .errorMsg "Recipient not found."⟩)
      | some existing =>
        let normalized := normalizeRecipient payload
        match validateRecipient normalized with
        | some e => (db, ⟨400, .errorMsg e⟩)
        | none =>
          ({ db with recipients := (db.recipients.map
              (fun r => if r.id == payload.id.getD ""
                then recipientRow r.id r.shop normalized else r)) },
            ⟨200, .recipientResult (recipientRow existing.id existing.shop normalized)⟩)
  else if method == "DELETE" then
    if strBlank payload.id then (db, ⟨400, .errorMsg "Recipient id is required."⟩)
    else
      match db.recipients.find?
          (fun r => r.id == payload.id.getD "" && r.shop == sessionShop) with
      | none => (db, ⟨404, .errorMsg "Recipient not found."⟩)
      | some _ =>
        if db.plans.any (fun p => p.allocations.any
            (fun a => a.recipientId == payload.id.getD "")) then
          (db, ⟨409, .errorMsg "Recipient is used in split plans and cannot be deleted yet."⟩)
        else
          ({ db with recipients := (db.recipients.filter
              (fun r => !(r.id == payload.id.getD ""))) },
            ⟨200, .deletedResult⟩)
  else
    (db, ⟨405, .errorMsg ("Method " ++ method ++ " not supported.")⟩)

/-! ### Orders-created webhook route -/

/-- Order payload fields the webhook route reads. -/
structure OrderWebhookPayload where
  admin_graphql_api_id : Option String
  cart_token : Option String
  name : Option String
deriving DecidableEq

/-- The `where` clause of the webhook `findMany`: tenant scope plus an OR of
the correlation handles present (truthy) on the notification. -/
def webhookMatch (shop : String) (wp : OrderWebhookPayload) (p : SplitPlan) : Bool :=
  p.shop == shop &&
    ((!(strBlank wp.admin_graphql_api_id)
        && p.orderId == some (wp.admin_graphql_api_id.getD "")) ||
      (!(strBlank wp.cart_token) && p.cartToken == some (wp.cart_token.getD "")))

/-- The per-plan update of the webhook transaction:
`orderId` overwritten when the notification carries one (`?? undefined`),
`status` set to `order_created`, one `order.created.webhook` event appended. -/
def orderCreatedApply (wp : OrderWebhookPayload) (p : SplitPlan) : SplitPlan :=
  { p with
      orderId := match wp.admin_graphql_api_id with
        | some v => some v
        | none => p.orderId
      status := "order_created"
      events := p.events ++ [⟨"order.created.webhook",
        .webhookSnapshot wp.admin_graphql_api_id wp.cart_token wp.name⟩] }

/-- The action of the orders-created webhook route. -/
def webhookAction (db : DB) (shop : String) (wp : OrderWebhookPayload) :
    DB × Response :=
  if strBlank wp.cart_token && strBlank wp.admin_graphql_api_id then
    (db, ⟨200, .emptyResponse⟩)
  else if (db.plans.filter (webhookMatch shop wp)).isEmpty then
    (db, ⟨200, .emptyResponse⟩)
  else
    ({ db with plans := (db.plans.map
        (fun p => if webhookMatch shop wp p then orderCreatedApply wp p else p)) },
      ⟨200, .emptyResponse⟩)

/-! ### Reachable database states -/

/-- Database states reachable through the public routes, starting from the
empty database.  Generated row ids are arbitrary but fresh (primary key). -/
inductive Reachable : DB → Prop where
  | init : Reachable ⟨[], []⟩
  | recipientsStep (db : DB) (shop method : String) (payload : RecipientPayload)
      (newId : String) (hfresh : ∀ r ∈ db.recipients, r.id ≠ newId)
      (h : Reachable db) :
      Reachable (recipientsAction db shop method payload newId).1
  | splitPlansStep (db : DB) (shop method : String) (payload : CreateSplitPlanPayload)
      (newPlanId : String) (hfresh : ∀ p ∈ db.plans, p.id ≠ newPlanId)
      (h : Reachable db) :
      Reachable (splitPlansAction db shop method payload newPlanId).1
  | splitOpsStep (db : DB) (shop : String) (payload : SplitOpsPayload) (now : Nat)
      (h : Reachable db) :
      Reachable (splitOpsAction db shop payload now).1
  | webhookStep (db : DB) (shop : String) (wp : OrderWebhookPayload)
      (h : Reachable db) :
      Reachable (webhookAction db shop wp).1

/-- The quantity total of the stored allocation rows of a plan (JavaScript `+`
fold, mirroring the reduce in the validator). -/
def allocationSum (allocations : List Allocation) : JsNum :=
  allocations.foldl (fun s a => s.add a.quantity) (0 : JsNum)

/-- Aggregate invariant carried by every reachable plan:
allocation quantities partition the line quantity, the delivery status is one
of `pending`/`sent`/`acked`, and no delivery error is recorded. -/
def PlanOk (p : SplitPlan) : Prop :=
  p.lineQuantity.eqb (allocationSum p.allocations) = true ∧
    (p.deliveryStatus = "pending" ∨ p.deliveryStatus = "sent" ∨ p.deliveryStatus = "acked") ∧
    p.lastDeliveryError = none

/-! ### The send/retry and ack branches, characterized -/

/-- The updated plan row written by an accepted `send_to_3pl`/`retry_3pl`. -/
def dispatchUpdated (db : DB) (plan : SplitPlan) (op : String) (now : Nat) : SplitPlan :=
  { plan with
      deliveryStatus := "sent"
      deliveryAttempts := plan.deliveryAttempts + 1
      lastDeliveryAt := some now
      lastDeliveryError := none
      idempotencyKey := some (dispatchIdempotencyKey plan)
      events := plan.events ++
        [⟨if op == "retry_3pl" then "split_plan.delivery_retried"
            else "split_plan.delivery_sent",
          .contractSnapshot (dispatchContract db plan)⟩] }

/-- The updated plan row written by an accepted `ack_3pl`. -/
def ackUpdated (plan : SplitPlan) : SplitPlan :=
  { plan with
      deliveryStatus := "acked"
      events := plan.events ++
        [⟨"split_plan.delivery_acked", .ackSnapshot plan.deliveryStatus⟩] }

/-! ### A concrete trace through the routes (used for witnesses) -/

def demoShop : String := "splitship-pro.myshopify.com"

def demoRecipientPayload : RecipientPayload :=
  { id := none, name := "Jane Doe", email := none, phone := none,
    addressLine1 := "1 Main St", addressLine2 := none, city := "Chicago",
    province := none, postalCode := "60601", countryCode := "us" }

/-- State after creating one recipient `r1`. -/
def demoDb1 : DB := (recipientsAction ⟨[], []⟩ demoShop "POST" demoRecipientPayload "r1").1

def demoPlanPayload : CreateSplitPlanPayload :=
  { id := none, sourceLineGid := "gid://shopify/LineItem/1", lineQuantity := 2,
    cartToken := some "ct1", orderId := none, allocations := some [⟨"r1", 2⟩] }

/-- State after POSTing split plan `p1` (quantity 2, all allocated to `r1`). -/
def demoDb2 : DB := (splitPlansAction demoDb1 demoShop "POST" demoPlanPayload "p1").1

/-- The created plan row. -/
def demoPlan : SplitPlan := createdPlan demoShop demoPlanPayload "p1"

/-- State after the first `send_to_3pl` on `p1`. -/
def demoDb3 : DB := (splitOpsAction demoDb2 demoShop ⟨some "p1", some "send_to_3pl"⟩ 100).1

/-- The plan row after the first send. -/
def demoSentPlan : SplitPlan := demoDb3.plans.headD demoPlan

/-- Result of an explicit `retry_3pl` after the first send. -/
def demoRetry : DB × Response :=
  splitOpsAction demoDb3 demoShop ⟨some "p1", some "retry_3pl"⟩ 200

/-- Result of a second `send_to_3pl` after the first send. -/
def demoSend2 : DB × Response :=
  splitOpsAction demoDb3 demoShop ⟨some "p1", some "send_to_3pl"⟩ 200

/-- State after `mark_ready_for_fulfillment` on `p1` (from `demoDb2`). -/
def demoDbReady : DB :=
  (splitOpsAction demoDb2 demoShop ⟨some "p1", some "mark_ready_for_fulfillment"⟩ 50).1

def demoWebhookPayload : OrderWebhookPayload :=
  ⟨some "gid://shopify/Order/9", some "ct1", some "#1001"⟩

/-- Result of the orders-created webhook hitting the ready plan. -/
def demoWebhookResult : DB × Response := webhookAction demoDbReady demoShop demoWebhookPayload

/-- A database holding only a plan of another tenant, with id `p1`. -/
def demoForeignDb : DB := ⟨[], [{ demoPlan with shop := "other-shop.myshopify.com" }]⟩

/-- The PUT/DELETE payload naming plan `p1`. -/
def demoPutPayload : CreateSplitPlanPayload := { demoPlanPayload with id := some "p1" }

/-- A POST payload whose allocations repeat recipient `r1`. -/
def demoDupPayload : CreateSplitPlanPayload :=
  { id := none, sourceLineGid := "gid://shopify/LineItem/2", lineQuantity := 2,
    cartToken := none, orderId := none, allocations := some [⟨"r1", 1⟩, ⟨"r1", 1⟩] }

/-- The ack result of `p1` while still pending. -/
def demoAckedPlan : SplitPlan :=
  { demoPlan with
      deliveryStatus := "acked"
      events := demoPlan.events ++
        [⟨"split_plan.delivery_acked", .ackSnapshot demoPlan.deliveryStatus⟩] }
/-- The ready plan row before the webhook hits it. -/
def demoReadyPlan : SplitPlan := demoDbReady.plans.headD demoPlan


/-! ### Basic lemmas about the validator -/

theorem JsNum.den_ne (a : JsNum) : ((a.den : Rat)) ≠ 0 := by
  have := a.den_pos
  positivity

theorem JsNum.toRat_add (a b : JsNum) : (a.add b).toRat = a.toRat + b.toRat := by
  unfold JsNum.add JsNum.toRat
  have ha := a.den_ne
  have hb := b.den_ne
  field_simp

theorem JsNum.eqb_iff (a b : JsNum) : a.eqb b = true ↔ a.toRat = b.toRat := by
  unfold JsNum.eqb JsNum.toRat
  rw [div_eq_div_iff a.den_ne b.den_ne, beq_iff_eq]
  constructor
  · intro h; exact_mod_cast h
  · intro h; exact_mod_cast h

theorem allocationReduceStep_eq (acc : List String × JsNum) (a : RecipientInput) :
    allocationReduceStep acc a =
      (acc.1 ++
        ((if jsTrim a.recipientKey == "" then [recipientKeyMessage] else []) ++
          (if !a.quantity.isInteger || a.quantity.leZero
            then [recipientQuantityMessage] else [])),
        acc.2.add a.quantity) := by
  unfold allocationReduceStep
  split <;> split <;> simp

theorem foldl_allocationReduceStep (l : List RecipientInput) (es : List String) (z : JsNum) :
    l.foldl allocationReduceStep (es, z) =
      (es ++ allocationRuleErrors l, l.foldl (fun s a => s.add a.quantity) z) := by
  induction l generalizing es z with
  | nil => simp [allocationRuleErrors]
  | cons a rest ih =>
      simp only [List.foldl_cons, allocationReduceStep_eq, allocationRuleErrors, ih,
        List.append_assoc]

theorem validate_errors_eq (q : JsNum) (l : List RecipientInput) :
    (validateRecipientAllocations q l).errors =
      ((if !q.isInteger || q.leZero then [lineQuantityMessage] else []) ++
        (if l.isEmpty then [emptyAllocationsMessage] else [])) ++
      allocationRuleErrors l ++
      (if !(q.eqb (sumOfQuantities l))
        then [allocationMismatchMessage (sumOfQuantities l) q] else []) := by
  simp only [validateRecipientAllocations, foldl_allocationReduceStep, sumOfQuantities]
  split <;> simp

theorem validate_allocated_eq (q : JsNum) (l : List RecipientInput) :
    (validateRecipientAllocations q l).allocatedQuantity = sumOfQuantities l := by
  simp only [validateRecipientAllocations, foldl_allocationReduceStep, sumOfQuantities]

theorem validate_valid_iff (q : JsNum) (l : List RecipientInput) :
    (validateRecipientAllocations q l).valid = true ↔
      (validateRecipientAllocations q l).errors = [] := by
  unfold validateRecipientAllocations
  simp [List.isEmpty_iff]

theorem allocationRuleErrors_eq_nil (l : List RecipientInput) :
    allocationRuleErrors l = [] ↔
      ∀ a ∈ l, jsTrim a.recipientKey ≠ "" ∧ a.quantity.isPositiveInteger = true := by
  induction l with
  | nil => simp [allocationRuleErrors]
  | cons a rest ih =>
      simp only [allocationRuleErrors, List.append_eq_nil, ih, List.mem_cons]
      constructor
      · rintro ⟨⟨h1, h2⟩, h3⟩
        intro b hb
        rcases hb with rfl | hb
        · refine ⟨?_, ?_⟩
          · intro hk
            rw [hk] at h1
            simp at h1
          · by_contra hq
            have : (!b.quantity.isInteger || b.quantity.leZero) = true := by
              cases hI : b.quantity.isInteger <;> cases hL : b.quantity.leZero <;>
                simp_all [JsNum.isPositiveInteger]
            rw [this] at h2
            simp at h2
        · exact h3 b hb
      · intro h
        have ha := h a (Or.inl rfl)
        refine ⟨⟨?_, ?_⟩, fun b hb => h b (Or.inr hb)⟩
        · rw [if_neg]
          simp only [beq_iff_eq]
          exact ha.1
        · rw [if_neg]
          have := ha.2
          cases hI : JsNum.isInteger a.quantity <;> cases hL : JsNum.leZero a.quantity <;>
            simp_all [JsNum.isPositiveInteger]

theorem validate_errors_nil_iff (q : JsNum) (l : List RecipientInput) :
    (validateRecipientAllocations q l).errors = [] ↔
      (q.isPositiveInteger = true ∧ l ≠ [] ∧
        (∀ a ∈ l, jsTrim a.recipientKey ≠ "" ∧ a.quantity.isPositiveInteger = true) ∧
        q.eqb (sumOfQuantities l) = true) := by
  rw [validate_errors_eq]
  simp only [List.append_eq_nil, allocationRuleErrors_eq_nil]
  constructor
  · rintro ⟨⟨⟨h1, h2⟩, h3⟩, h4⟩
    refine ⟨?_, ?_, h3, ?_⟩
    · by_contra hq
      have : (!q.isInteger || q.leZero) = true := by
        cases hI : q.isInteger <;> cases hL : q.leZero <;>
          simp_all [JsNum.isPositiveInteger]
      rw [this] at h1
      simp at h1
    · intro hl
      rw [hl] at h2
      simp at h2
    · by_contra he
      rw [if_pos] at h4
      · simp at h4
      · simp only [Bool.not_eq_true] at he
        rw [he]
        rfl
  · rintro ⟨h1, h2, h3, h4⟩
    refine ⟨⟨⟨?_, ?_⟩, h3⟩, ?_⟩
    · rw [if_neg]
      cases hI : q.isInteger <;> cases hL : q.leZero <;>
        simp_all [JsNum.isPositiveInteger]
    · rw [if_neg]
      simp [List.isEmpty_iff, h2]
    · rw [if_neg]
      rw [h4]
      simp

theorem sumOfQuantities_toRat (l : List RecipientInput) :
    (sumOfQuantities l).toRat = (l.map (fun a => a.quantity.toRat)).sum := by
  have key : ∀ (l : List RecipientInput) (z : JsNum),
      (l.foldl (fun s a => s.add a.quantity) z).toRat
        = z.toRat + (l.map (fun a => a.quantity.toRat)).sum := by
    intro l
    induction l with
    | nil => intro z; simp
    | cons a rest ih =>
        intro z
        simp only [List.foldl_cons, List.map_cons, List.sum_cons, ih, JsNum.toRat_add]
        ring
  have h0 : (0 : JsNum).toRat = 0 := by
    have hn : (0 : JsNum).num = 0 := rfl
    have hd : (0 : JsNum).den = 1 := rfl
    rw [JsNum.toRat, hn, hd]
    norm_num
  rw [sumOfQuantities, key, h0, zero_add]

/-! ### Preservation of the aggregate invariant -/

theorem mem_ite_map {α : Type _} {l : List α} {c : α → Bool} {f : α → α} {x : α}
    (hx : x ∈ l.map fun a => if c a then f a else a) :
    (∃ a ∈ l, c a = true ∧ x = f a) ∨ x ∈ l := by
  rw [List.mem_map] at hx
  obtain ⟨a, ha, hax⟩ := hx
  by_cases h : c a = true
  · rw [if_pos h] at hax
    exact Or.inl ⟨a, ha, h, hax.symm⟩
  · rw [if_neg h] at hax
    exact Or.inr (hax ▸ ha)

theorem mem_updatePlan {db : DB} {u p : SplitPlan} (hp : p ∈ (updatePlan db u).plans) :
    p = u ∨ p ∈ db.plans := by
  rcases mem_ite_map hp with ⟨a, _, _, rfl⟩ | h
  · exact Or.inl rfl
  · exact Or.inr h

theorem allocationSum_map (l : List RecipientInput) :
    allocationSum (l.map fun a => ⟨a.recipientKey, a.quantity⟩) = sumOfQuantities l := by
  simp [allocationSum, sumOfQuantities, List.foldl_map]

theorem valid_eqb_sum {q : JsNum} {l : List RecipientInput}
    (h : (validateRecipientAllocations q l).valid = true) :
    q.eqb (sumOfQuantities l) = true := by
  rw [validate_valid_iff, validate_errors_nil_iff] at h
  exact h.2.2.2

theorem createdPlan_PlanOk {sessionShop : String} {payload : CreateSplitPlanPayload}
    {newPlanId : String}
    (hvalid : (validateRecipientAllocations payload.lineQuantity
      (payload.allocations.getD [])).valid = true) :
    PlanOk (createdPlan sessionShop payload newPlanId) := by
  refine ⟨?_, Or.inl rfl, rfl⟩
  show payload.lineQuantity.eqb
    (allocationSum ((payload.allocations.getD []).map fun a => ⟨a.recipientKey, a.quantity⟩))
      = true
  rw [allocationSum_map]
  exact valid_eqb_sum hvalid

theorem putApply_PlanOk {payload : CreateSplitPlanPayload} {p : SplitPlan}
    (hp : PlanOk p)
    (hvalid : (validateRecipientAllocations payload.lineQuantity
      (payload.allocations.getD [])).valid = true) :
    PlanOk (putApply payload p) := by
  refine ⟨?_, hp.2.1, hp.2.2⟩
  show payload.lineQuantity.eqb
    (allocationSum ((payload.allocations.getD []).map fun a => ⟨a.recipientKey, a.quantity⟩))
      = true
  rw [allocationSum_map]
  exact valid_eqb_sum hvalid

theorem recipientsAction_plans (db : DB) (sessionShop method : String)
    (payload : RecipientPayload) (newId : String) :
    ((recipientsAction db sessionShop method payload newId).1).plans = db.plans := by
  simp only [recipientsAction]
  repeat' split <;> try rfl

theorem splitPlans_preserves_PlanOk {db : DB} {sessionShop method : String}
    {payload : CreateSplitPlanPayload} {newPlanId : String}
    (hInv : ∀ p ∈ db.plans, PlanOk p) :
    ∀ p ∈ (splitPlansAction db sessionShop method payload newPlanId).1.plans, PlanOk p := by
  intro p hp
  simp only [splitPlansAction] at hp
  split at hp
  case isTrue =>
    split at hp
    case isTrue => exact hInv p hp
    case isFalse hvalid =>
      split at hp
      case isTrue => exact hInv p hp
      case isFalse =>
        simp only [List.mem_append, List.mem_singleton] at hp
        rcases hp with hp | rfl
        · exact hInv p hp
        · exact createdPlan_PlanOk (by simpa using hvalid)
  case isFalse =>
    split at hp
    case isTrue =>
      split at hp
      case isTrue => exact hInv p hp
      case isFalse =>
        split at hp
        case h_1 => exact hInv p hp
        case h_2 existing hfind =>
          split at hp
          case isTrue => exact hInv p hp
          case isFalse hvalid =>
            split at hp
            case isTrue => exact hInv p hp
            case isFalse =>
              rcases mem_ite_map hp with ⟨a, ha, _, rfl⟩ | h
              · exact putApply_PlanOk (hInv a ha) (by simpa using hvalid)
              · exact hInv p h
    case isFalse =>
      split at hp
      case isTrue =>
        split at hp
        case isTrue => exact hInv p hp
        case isFalse =>
          split at hp
          case h_1 => exact hInv p hp
          case h_2 =>
            exact hInv p (List.mem_of_mem_filter hp)
      case isFalse => exact hInv p hp

theorem splitOps_preserves_PlanOk {db : DB} {sessionShop : String}
    {payload : SplitOpsPayload} {now : Nat}
    (hInv : ∀ p ∈ db.plans, PlanOk p) :
    ∀ p ∈ (splitOpsAction db sessionShop payload now).1.plans, PlanOk p := by
  intro p hp
  simp only [splitOpsAction] at hp
  split at hp
  case isTrue => exact hInv p hp
  case isFalse =>
    split at hp
    case isTrue => exact hInv p hp
    case isFalse =>
      split at hp
      case h_1 => exact hInv p hp
      case h_2 splitPlan hfind =>
        have hmem := List.mem_of_find?_eq_some hfind
        have hplan := hInv splitPlan hmem
        split at hp
        case isTrue => exact hInv p hp
        case isFalse =>
          split at hp
          case isTrue =>
            rcases mem_updatePlan hp with rfl | h
            · exact ⟨hplan.1, hplan.2.1, hplan.2.2⟩
            · exact hInv p h
          case isFalse =>
            split at hp
            case isTrue =>
              rcases mem_updatePlan hp with rfl | h
              · exact ⟨hplan.1, Or.inr (Or.inl rfl), rfl⟩
              · exact hInv p h
            case isFalse =>
              split at hp
              case isTrue =>
                rcases mem_updatePlan hp with rfl | h
                · exact ⟨hplan.1, Or.inr (Or.inr rfl), hplan.2.2⟩
                · exact hInv p h
              case isFalse =>
                split at hp
                case h_1 => exact hInv p hp
                case h_2 =>
                  rcases mem_updatePlan hp with rfl | h
                  · exact ⟨hplan.1, hplan.2.1, hplan.2.2⟩
                  · exact hInv p h

theorem webhook_preserves_PlanOk {db : DB} {shop : String} {wp : OrderWebhookPayload}
    (hInv : ∀ p ∈ db.plans, PlanOk p) :
    ∀ p ∈ (webhookAction db shop wp).1.plans, PlanOk p := by
  intro p hp
  simp only [webhookAction] at hp
  split at hp
  case isTrue => exact hInv p hp
  case isFalse =>
    split at hp
    case isTrue => exact hInv p hp
    case isFalse =>
      rcases mem_ite_map hp with ⟨a, ha, _, rfl⟩ | h
      · have hplan := hInv a ha
        exact ⟨hplan.1, hplan.2.1, hplan.2.2⟩
      · exact hInv p h

theorem reachable_PlanOk {db : DB} (h : Reachable db) : ∀ p ∈ db.plans, PlanOk p := by
  induction h with
  | init => intro p hp; simp at hp
  | recipientsStep db shop method payload newId hfresh h ih =>
      rw [recipientsAction_plans]
      exact ih
  | splitPlansStep db shop method payload newPlanId hfresh h ih =>
      exact splitPlans_preserves_PlanOk ih
  | splitOpsStep db shop payload now h ih =>
      exact splitOps_preserves_PlanOk ih
  | webhookStep db shop wp h ih =>
      exact webhook_preserves_PlanOk ih

theorem allocations_isEmpty_false {plan : SplitPlan} (halloc : plan.allocations ≠ []) :
    plan.allocations.isEmpty = false := by
  cases h : plan.allocations with
  | nil => exact absurd h halloc
  | cons a l => rfl

theorem splitOps_dispatch_eq (db : DB) (sessionShop pid op : String) (now : Nat)
    (plan : SplitPlan) (hpid : pid ≠ "")
    (hfind : db.plans.find? (fun p => p.id == pid && p.shop == sessionShop) = some plan)
    (halloc : plan.allocations ≠ [])
    (hop : op = "send_to_3pl" ∨ op = "retry_3pl") :
    splitOpsAction db sessionShop ⟨some pid, some op⟩ now =
      (updatePlan db (dispatchUpdated db plan op now),
        ⟨200, .planWithContract (dispatchUpdated db plan op now)
          (dispatchContract db plan)⟩) := by
  have hpidb : (pid == "") = false := beq_eq_false_iff_ne.mpr hpid
  have hallocb := allocations_isEmpty_false halloc
  rcases hop with rfl | rfl <;>
    simp [splitOpsAction, strBlank, hpidb, hfind, hallocb, dispatchUpdated]

theorem splitOps_ack_eq (db : DB) (sessionShop pid : String) (now : Nat)
    (plan : SplitPlan) (hpid : pid ≠ "")
    (hfind : db.plans.find? (fun p => p.id == pid && p.shop == sessionShop) = some plan)
    (halloc : plan.allocations ≠ []) :
    splitOpsAction db sessionShop ⟨some pid, some "ack_3pl"⟩ now =
      (updatePlan db (ackUpdated plan), ⟨200, .planResult (ackUpdated plan)⟩) := by
  have hpidb : (pid == "") = false := beq_eq_false_iff_ne.mpr hpid
  have hallocb := allocations_isEmpty_false halloc
  simp [splitOpsAction, strBlank, hpidb, hfind, hallocb, ackUpdated]


/-! ### Further helper lemmas -/

theorem foundRecipients_length_lt {db : DB} (sessionShop : String) {ids : List String}
    (hdb : (db.recipients.map Recipient.id).Nodup) (hdup : ¬ ids.Nodup) :
    (foundRecipients db sessionShop ids).length < ids.length := by
  have hsub : (foundRecipients db sessionShop ids).Sublist db.recipients :=
    List.filter_sublist _
  have hFnodup : ((foundRecipients db sessionShop ids).map Recipient.id).Nodup :=
    List.Nodup.sublist (hsub.map Recipient.id) hdb
  have hsubset : ∀ x ∈ (foundRecipients db sessionShop ids).map Recipient.id, x ∈ ids := by
    intro x hx
    rw [List.mem_map] at hx
    obtain ⟨r, hr, rfl⟩ := hx
    have hcond := List.of_mem_filter hr
    simp only [Bool.and_eq_true] at hcond
    simpa using hcond.1
  have hcard : ((foundRecipients db sessionShop ids).map Recipient.id).length
      ≤ ids.dedup.length := by
    have h1 := List.toFinset_card_of_nodup hFnodup
    have h2 : ((foundRecipients db sessionShop ids).map Recipient.id).toFinset
        ⊆ ids.toFinset := by
      intro x hx
      rw [List.mem_toFinset] at hx ⊢
      exact hsubset x hx
    have h3 := Finset.card_le_card h2
    rw [h1, List.card_toFinset] at h3
    exact h3
  have hdedup : ids.dedup.length < ids.length := by
    rcases Nat.lt_or_ge ids.dedup.length ids.length with h | h
    · exact h
    · exfalso
      have hle := (List.dedup_sublist ids).length_le
      have heq : ids.dedup.length = ids.length := le_antisymm hle h
      have heqlist := (List.dedup_sublist ids).eq_of_length heq
      exact hdup (heqlist ▸ List.nodup_dedup ids)
  calc (foundRecipients db sessionShop ids).length
      = ((foundRecipients db sessionShop ids).map Recipient.id).length := by simp
    _ ≤ ids.dedup.length := hcard
    _ < ids.length := hdedup

/-- C10: a POST or PUT split-plan request whose allocations repeat a
recipient key is rejected with "Some recipients are missing or not accessible
for this shop." and no write occurs — even when every named recipient exists
in the tenant of the caller and the validator reports the input valid — because
the recipient-existence check compares the count of distinct rows found
against the number of allocation entries. -/
theorem opStatusMap_mem {op ns : String} (h : opStatusMap op = some ns) :
    ns = "ready_for_fulfillment" ∨ ns = "fulfilled_partial"
      ∨ ns = "fulfilled_complete" := by
  unfold opStatusMap at h
  split at h
  · exact Or.inl (Option.some.inj h).symm
  · split at h
    · exact Or.inr (Or.inl (Option.some.inj h).symm)
    · split at h
      · exact Or.inr (Or.inr (Option.some.inj h).symm)
      · exact absurd h (by simp)

theorem splitOps_status_origin {db : DB} {sessionShop : String}
    {payload : SplitOpsPayload} {now : Nat} {p : SplitPlan}
    (hp : p ∈ (splitOpsAction db sessionShop payload now).1.plans) :
    (∃ q ∈ db.plans, p.status = q.status) ∨
      (p.status = "ready_for_fulfillment" ∨ p.status = "fulfilled_partial"
        ∨ p.status = "fulfilled_complete") := by
  simp only [splitOpsAction] at hp
  split at hp
  case isTrue => exact Or.inl ⟨p, hp, rfl⟩
  case isFalse =>
    split at hp
    case isTrue => exact Or.inl ⟨p, hp, rfl⟩
    case isFalse =>
      split at hp
      case h_1 => exact Or.inl ⟨p, hp, rfl⟩
      case h_2 splitPlan hfind =>
        have hmem := List.mem_of_find?_eq_some hfind
        split at hp
        case isTrue => exact Or.inl ⟨p, hp, rfl⟩
        case isFalse =>
          split at hp
          case isTrue =>
            rcases mem_updatePlan hp with rfl | h
            · exact Or.inr (Or.inl rfl)
            · exact Or.inl ⟨p, h, rfl⟩
          case isFalse =>
            split at hp
            case isTrue =>
              rcases mem_updatePlan hp with rfl | h
              · exact Or.inl ⟨splitPlan, hmem, rfl⟩
              · exact Or.inl ⟨p, h, rfl⟩
            case isFalse =>
              split at hp
              case isTrue =>
                rcases mem_updatePlan hp with rfl | h
                · exact Or.inl ⟨splitPlan, hmem, rfl⟩
                · exact Or.inl ⟨p, h, rfl⟩
              case isFalse =>
                split at hp
                case h_1 => exact Or.inl ⟨p, hp, rfl⟩
                case h_2 nextStatus hmap =>
                  rcases mem_updatePlan hp with rfl | h
                  · exact Or.inr (opStatusMap_mem hmap)
                  · exact Or.inl ⟨p, h, rfl⟩

theorem splitPlans_status_origin {db : DB} {sessionShop method : String}
    {payload : CreateSplitPlanPayload} {newPlanId : String} {p : SplitPlan}
    (hp : p ∈ (splitPlansAction db sessionShop method payload newPlanId).1.plans) :
    (∃ q ∈ db.plans, p.status = q.status) ∨ p.status = "draft" := by
  simp only [splitPlansAction] at hp
  split at hp
  case isTrue =>
    split at hp
    case isTrue => exact Or.inl ⟨p, hp, rfl⟩
    case isFalse =>
      split at hp
      case isTrue => exact Or.inl ⟨p, hp, rfl⟩
      case isFalse =>
        simp only [List.mem_append, List.mem_singleton] at hp
        rcases hp with hp | rfl
        · exact Or.inl ⟨p, hp, rfl⟩
        · exact Or.inr rfl
  case isFalse =>
    split at hp
    case isTrue =>
      split at hp
      case isTrue => exact Or.inl ⟨p, hp, rfl⟩
      case isFalse =>
        split at hp
        case h_1 => exact Or.inl ⟨p, hp, rfl⟩
        case h_2 existing hfind =>
          split at hp
          case isTrue => exact Or.inl ⟨p, hp, rfl⟩
          case isFalse =>
            split at hp
            case isTrue => exact Or.inl ⟨p, hp, rfl⟩
            case isFalse =>
              rcases mem_ite_map hp with ⟨a, ha, _, rfl⟩ | h
              · exact Or.inl ⟨a, ha, rfl⟩
              · exact Or.inl ⟨p, h, rfl⟩
    case isFalse =>
      split at hp
      case isTrue =>
        split at hp
        case isTrue => exact Or.inl ⟨p, hp, rfl⟩
        case isFalse =>
          split at hp
          case h_1 => exact Or.inl ⟨p, hp, rfl⟩
          case h_2 => exact Or.inl ⟨p, List.mem_of_mem_filter hp, rfl⟩
      case isFalse => exact Or.inl ⟨p, hp, rfl⟩

/-- C6 counterexample: plan `p1` is in the later lifecycle state
`ready_for_fulfillment` when the order-created webhook matches it by cart
token; processing the notification moves it back to `order_created`,
contradicting "never moves a plan from a later lifecycle state back". -/

theorem demo_reachable2 : Reachable demoDb2 :=
  Reachable.splitPlansStep demoDb1 demoShop "POST" demoPlanPayload "p1" (by decide)
    (Reachable.recipientsStep ⟨[], []⟩ demoShop "POST" demoRecipientPayload "r1" (by decide)
      Reachable.init)

theorem demo_reachable3 : Reachable demoDb3 :=
  Reachable.splitOpsStep demoDb2 demoShop ⟨some "p1", some "send_to_3pl"⟩ 100 demo_reachable2

/-! ### Claim C1 -/

/-- C1: every split plan in a database state reachable through the public
routes satisfies the allocation-integrity invariant — the quantities of its
allocation rows sum exactly to its line quantity; and the POST and PUT
split-plan operations run the allocation validator before writing, rejecting
the request (with the database unchanged) when it fails. -/
theorem claim_C1_allocation_sum_invariant :
    (∀ db : DB, Reachable db → ∀ p ∈ db.plans,
      (allocationSum p.allocations).toRat = p.lineQuantity.toRat) ∧
    (∀ (db : DB) (sessionShop : String) (payload : CreateSplitPlanPayload)
        (newPlanId : String),
      (validateRecipientAllocations payload.lineQuantity
        (payload.allocations.getD [])).valid = false →
      splitPlansAction db sessionShop "POST" payload newPlanId =
        (db, ⟨400, .errorWithValidation "Allocation validation failed."
          (validateRecipientAllocations payload.lineQuantity
            (payload.allocations.getD []))⟩)) ∧
    (∀ (db : DB) (sessionShop : String) (payload : CreateSplitPlanPayload)
        (newPlanId : String),
      (validateRecipientAllocations payload.lineQuantity
        (payload.allocations.getD [])).valid = false →
      (splitPlansAction db sessionShop "PUT" payload newPlanId).1 = db) := by
  refine ⟨?_, ?_, ?_⟩
  · intro db h p hp
    have hInv := (reachable_PlanOk h p hp).1
    rw [JsNum.eqb_iff] at hInv
    exact hInv.symm
  · intro db sessionShop payload newPlanId hvalid
    simp only [splitPlansAction]
    rw [if_pos (by decide)]
    rw [if_pos (by simp [hvalid])]
  · intro db sessionShop payload newPlanId hvalid
    simp only [splitPlansAction]
    rw [if_neg (by decide), if_pos (by decide)]
    split
    · rfl
    · split
      · rfl
      · rw [if_pos (by simp [hvalid])]

/-- Witness for C1 at the concrete trace: the created plan `p1`
(line quantity 2, single allocation of 2) satisfies the invariant. -/
theorem claim_C1_witness :
    (allocationSum demoPlan.allocations).toRat = demoPlan.lineQuantity.toRat :=
  claim_C1_allocation_sum_invariant.1 demoDb2 demo_reachable2 demoPlan (by decide)

/-! ### Claim C3 -/

/-- C3: `validateRecipientAllocations` returns `valid` iff `errors` is empty;
`errors` is empty iff all four rules hold (positive-integer line quantity,
non-empty allocations, per-allocation non-blank key and positive-integer
quantity, and exact sum match); every violated rule contributes its message
(accumulated, not short-circuited); and `allocatedQuantity` is the arithmetic
sum of the allocation quantities. -/
theorem claim_C3_validator_characterization (lineItemQuantity : JsNum)
    (allocations : List RecipientInput) :
    ((validateRecipientAllocations lineItemQuantity allocations).valid = true ↔
      (validateRecipientAllocations lineItemQuantity allocations).errors = []) ∧
    ((validateRecipientAllocations lineItemQuantity allocations).errors = [] ↔
      (lineItemQuantity.isPositiveInteger = true ∧ allocations ≠ [] ∧
        (∀ a ∈ allocations,
          jsTrim a.recipientKey ≠ "" ∧ a.quantity.isPositiveInteger = true) ∧
        lineItemQuantity.eqb (sumOfQuantities allocations) = true)) ∧
    (validateRecipientAllocations lineItemQuantity allocations).allocatedQuantity
      = sumOfQuantities allocations ∧
    (validateRecipientAllocations lineItemQuantity allocations).allocatedQuantity.toRat
      = (allocations.map (fun a => a.quantity.toRat)).sum ∧
    (lineItemQuantity.isPositiveInteger = false →
      lineQuantityMessage ∈ (validateRecipientAllocations lineItemQuantity allocations).errors) ∧
    (allocations = [] →
      emptyAllocationsMessage ∈ (validateRecipientAllocations lineItemQuantity allocations).errors) ∧
    ((∃ a ∈ allocations, jsTrim a.recipientKey = "") →
      recipientKeyMessage ∈ (validateRecipientAllocations lineItemQuantity allocations).errors) ∧
    ((∃ a ∈ allocations, a.quantity.isPositiveInteger = false) →
      recipientQuantityMessage ∈ (validateRecipientAllocations lineItemQuantity allocations).errors) ∧
    (lineItemQuantity.eqb (sumOfQuantities allocations) = false →
      allocationMismatchMessage (sumOfQuantities allocations) lineItemQuantity
        ∈ (validateRecipientAllocations lineItemQuantity allocations).errors) := by
  refine ⟨validate_valid_iff _ _, validate_errors_nil_iff _ _, validate_allocated_eq _ _,
    ?_, ?_, ?_, ?_, ?_, ?_⟩
  · rw [validate_allocated_eq]
    exact sumOfQuantities_toRat allocations
  · intro h
    rw [validate_errors_eq]
    have : (!lineItemQuantity.isInteger || lineItemQuantity.leZero) = true := by
      cases hI : lineItemQuantity.isInteger <;> cases hL : lineItemQuantity.leZero <;>
        simp_all [JsNum.isPositiveInteger]
    rw [this]
    simp
  · intro h
    rw [validate_errors_eq, h]
    simp [allocationRuleErrors]
  · intro h
    rw [validate_errors_eq]
    have : recipientKeyMessage ∈ allocationRuleErrors allocations := by
      obtain ⟨a, ha, hblank⟩ := h
      induction allocations with
      | nil => simp at ha
      | cons b rest ih =>
          simp only [allocationRuleErrors, List.mem_append]
          rcases List.mem_cons.mp ha with rfl | hmem
          · left
            rw [if_pos (by simp [hblank])]
            simp
          · right
            exact ih hmem
    simp [this]
  · intro h
    rw [validate_errors_eq]
    have : recipientQuantityMessage ∈ allocationRuleErrors allocations := by
      obtain ⟨a, ha, hbad⟩ := h
      induction allocations with
      | nil => simp at ha
      | cons b rest ih =>
          simp only [allocationRuleErrors, List.mem_append]
          rcases List.mem_cons.mp ha with rfl | hmem
          · left
            right
            rw [if_pos]
            · simp
            · cases hI : a.quantity.isInteger <;> cases hL : a.quantity.leZero <;>
                simp_all [JsNum.isPositiveInteger]
          · right
            exact ih hmem
    simp [this]
  · intro h
    rw [validate_errors_eq]
    simp [h]

/-- Witness for C3 at scenario A (`lineQuantity = 4`, allocations 2 + 2). -/
theorem claim_C3_witness :
    ((validateRecipientAllocations 4 [⟨"r1", 2⟩, ⟨"r2", 2⟩]).valid = true ↔
      (validateRecipientAllocations 4 [⟨"r1", 2⟩, ⟨"r2", 2⟩]).errors = []) ∧
    (validateRecipientAllocations 4 [⟨"r1", 2⟩, ⟨"r2", 2⟩]).allocatedQuantity
      = sumOfQuantities [⟨"r1", 2⟩, ⟨"r2", 2⟩] :=
  ⟨(claim_C3_validator_characterization 4 [⟨"r1", 2⟩, ⟨"r2", 2⟩]).1,
    (claim_C3_validator_characterization 4 [⟨"r1", 2⟩, ⟨"r2", 2⟩]).2.2.1⟩

/-! ### Claim C9 -/

/-- C9: in every reachable database state the delivery status of every plan is
one of `pending`, `sent`, `acked` — the `failed` state is unreachable — and
`lastDeliveryError` is never non-null. -/
theorem claim_C9_failed_unreachable :
    ∀ db : DB, Reachable db → ∀ p ∈ db.plans,
      (p.deliveryStatus = "pending" ∨ p.deliveryStatus = "sent"
        ∨ p.deliveryStatus = "acked") ∧
      p.deliveryStatus ≠ "failed" ∧ p.lastDeliveryError = none := by
  intro db h p hp
  obtain ⟨-, hstatus, herr⟩ := reachable_PlanOk h p hp
  refine ⟨hstatus, ?_, herr⟩
  rcases hstatus with h1 | h1 | h1 <;> rw [h1] <;> decide

/-- Witness for C9 at the concrete trace: the plan after its first send. -/
theorem claim_C9_witness :
    (demoSentPlan.deliveryStatus = "pending" ∨ demoSentPlan.deliveryStatus = "sent"
      ∨ demoSentPlan.deliveryStatus = "acked") ∧
    demoSentPlan.deliveryStatus ≠ "failed" ∧ demoSentPlan.lastDeliveryError = none :=
  claim_C9_failed_unreachable demoDb3 demo_reachable3 demoSentPlan (by decide)

/-! ### Claim C2 -/

/-- C2 counterexample: after the first send, plan `p1` holds key
`shop:p1:1` and `deliveryAttempts = 1`; the claim says the following explicit
`retry_3pl` must use key `shop:p1:2` (pre-call attempts + 1), but the code
reuses the stored key `shop:p1:1` for the retry attempt. -/
theorem claim_C2_counterexample :
    demoDb3.plans.map SplitPlan.deliveryAttempts = [1] ∧
    demoDb3.plans.map SplitPlan.idempotencyKey = [some (demoShop ++ ":p1:1")] ∧
    demoRetry.1.plans.map SplitPlan.deliveryAttempts = [2] ∧
    demoRetry.1.plans.map SplitPlan.idempotencyKey = [some (demoShop ++ ":p1:1")] ∧
    (match demoRetry.2.body with
      | .planWithContract _ contract => contract.idempotencyKey
      | _ => "") = demoShop ++ ":p1:1" ∧
    demoShop ++ ":p1:1" ≠ demoShop ++ ":p1:2" := by decide

/-- C2 amended: a dispatch (`send_to_3pl` or `retry_3pl`) derives its key as
`plan.idempotencyKey ?? "{shop}:{planId}:{deliveryAttempts + 1}"`: the first
dispatch on a plan with no stored key uses `{shop}:{planId}:{attempts + 1}`
(so `:1` on a fresh plan), while any later dispatch — including explicit
retries — reuses the stored key unchanged rather than embedding the new
attempt number. -/
theorem claim_C2_idempotency_key (db : DB) (sessionShop pid op : String) (now : Nat)
    (plan : SplitPlan) (hpid : pid ≠ "")
    (hfind : db.plans.find? (fun p => p.id == pid && p.shop == sessionShop) = some plan)
    (halloc : plan.allocations ≠ [])
    (hop : op = "send_to_3pl" ∨ op = "retry_3pl") :
    (splitOpsAction db sessionShop ⟨some pid, some op⟩ now).2 =
      ⟨200, .planWithContract (dispatchUpdated db plan op now) (dispatchContract db plan)⟩ ∧
    (dispatchContract db plan).idempotencyKey = dispatchIdempotencyKey plan ∧
    (dispatchUpdated db plan op now).idempotencyKey = some (dispatchIdempotencyKey plan) ∧
    (plan.idempotencyKey = none →
      dispatchIdempotencyKey plan =
        plan.shop ++ ":" ++ plan.id ++ ":" ++ toString (plan.deliveryAttempts + 1)) ∧
    (∀ k, plan.idempotencyKey = some k → dispatchIdempotencyKey plan = k) := by
  refine ⟨?_, rfl, rfl, ?_, ?_⟩
  · rw [splitOps_dispatch_eq db sessionShop pid op now plan hpid hfind halloc hop]
  · intro h
    simp [dispatchIdempotencyKey, h]
  · intro k h
    simp [dispatchIdempotencyKey, h]

/-- Witness for the amended C2: the first send on the fresh plan `p1`
(no stored key, zero prior attempts) uses key `shop:p1:1`. -/
theorem claim_C2_witness :
    dispatchIdempotencyKey demoPlan = demoShop ++ ":" ++ "p1" ++ ":" ++ toString (0 + 1) ∧
    (splitOpsAction demoDb2 demoShop ⟨some "p1", some "send_to_3pl"⟩ 100).2 =
      ⟨200, .planWithContract (dispatchUpdated demoDb2 demoPlan "send_to_3pl" 100)
        (dispatchContract demoDb2 demoPlan)⟩ := by
  have h := claim_C2_idempotency_key demoDb2 demoShop "p1" "send_to_3pl" 100 demoPlan
    (by decide) (by decide) (by decide) (Or.inl rfl)
  exact ⟨h.2.2.2.1 rfl, h.1⟩

/-! ### Claim C4 -/

/-- C4: an accepted `send_to_3pl`/`retry_3pl` performs exactly one single-row
update: the plan gets `deliveryStatus = "sent"`, `deliveryAttempts`
incremented by one, `lastDeliveryAt` set to the current time,
`lastDeliveryError` cleared, the derived idempotency key persisted, and
exactly one audit event appended in the same update. -/
theorem claim_C4_dispatch_effects (db : DB) (sessionShop pid op : String) (now : Nat)
    (plan : SplitPlan) (hpid : pid ≠ "")
    (hfind : db.plans.find? (fun p => p.id == pid && p.shop == sessionShop) = some plan)
    (halloc : plan.allocations ≠ [])
    (hop : op = "send_to_3pl" ∨ op = "retry_3pl") :
    splitOpsAction db sessionShop ⟨some pid, some op⟩ now =
      (updatePlan db (dispatchUpdated db plan op now),
        ⟨200, .planWithContract (dispatchUpdated db plan op now)
          (dispatchContract db plan)⟩) ∧
    (dispatchUpdated db plan op now).deliveryStatus = "sent" ∧
    (dispatchUpdated db plan op now).deliveryAttempts = plan.deliveryAttempts + 1 ∧
    (dispatchUpdated db plan op now).lastDeliveryAt = some now ∧
    (dispatchUpdated db plan op now).lastDeliveryError = none ∧
    (dispatchUpdated db plan op now).idempotencyKey = some (dispatchIdempotencyKey plan) ∧
    (∃ ev, (dispatchUpdated db plan op now).events = plan.events ++ [ev]) ∧
    (dispatchUpdated db plan op now).id = plan.id :=
  ⟨splitOps_dispatch_eq db sessionShop pid op now plan hpid hfind halloc hop,
    rfl, rfl, rfl, rfl, rfl, ⟨_, rfl⟩, rfl⟩

/-- Witness for C4: the first send on plan `p1`. -/
theorem claim_C4_witness :
    splitOpsAction demoDb2 demoShop ⟨some "p1", some "send_to_3pl"⟩ 100 =
      (updatePlan demoDb2 (dispatchUpdated demoDb2 demoPlan "send_to_3pl" 100),
        ⟨200, .planWithContract (dispatchUpdated demoDb2 demoPlan "send_to_3pl" 100)
          (dispatchContract demoDb2 demoPlan)⟩) ∧
    (dispatchUpdated demoDb2 demoPlan "send_to_3pl" 100).deliveryAttempts = 1 ∧
    (dispatchUpdated demoDb2 demoPlan "send_to_3pl" 100).events.length =
      demoPlan.events.length + 1 := by
  have h := claim_C4_dispatch_effects demoDb2 demoShop "p1" "send_to_3pl" 100 demoPlan
    (by decide) (by decide) (by decide) (Or.inl rfl)
  exact ⟨h.1, h.2.2.1, by decide⟩

/-! ### Claim C5 -/

/-- C5 counterexample: a second `send_to_3pl` on plan `p1` is the
second dispatch attempt of that plan (`deliveryAttempts` goes from 1 to 2), yet the
appended audit event has type `split_plan.delivery_sent`, not
`split_plan.delivery_retried` — the event type follows the operation name,
not the attempt ordinal claimed. -/
theorem claim_C5_counterexample :
    demoDb3.plans.map SplitPlan.deliveryAttempts = [1] ∧
    demoSend2.1.plans.map SplitPlan.deliveryAttempts = [2] ∧
    demoSend2.1.plans.map (fun p => p.events.map SplitAuditEvent.eventType) =
      [["split_plan.created", "split_plan.delivery_sent", "split_plan.delivery_sent"]] ∧
    ("split_plan.delivery_sent" : String) ≠ "split_plan.delivery_retried" := by decide

/-- C5 amended: the audit event appended by an accepted dispatch has type
`split_plan.delivery_retried` when the operation invoked is `retry_3pl` and
`split_plan.delivery_sent` when it is `send_to_3pl` — regardless of the
attempt ordinal — and its body carries the full payload contract sent to the
partner. -/
theorem claim_C5_delivery_event (db : DB) (sessionShop pid op : String) (now : Nat)
    (plan : SplitPlan) (hpid : pid ≠ "")
    (hfind : db.plans.find? (fun p => p.id == pid && p.shop == sessionShop) = some plan)
    (halloc : plan.allocations ≠ [])
    (hop : op = "send_to_3pl" ∨ op = "retry_3pl") :
    (∃ ev : SplitAuditEvent,
      (dispatchUpdated db plan op now).events = plan.events ++ [ev] ∧
      ev.eventType = (if op == "retry_3pl" then "split_plan.delivery_retried"
        else "split_plan.delivery_sent") ∧
      ev.payload = .contractSnapshot (dispatchContract db plan)) ∧
    splitOpsAction db sessionShop ⟨some pid, some op⟩ now =
      (updatePlan db (dispatchUpdated db plan op now),
        ⟨200, .planWithContract (dispatchUpdated db plan op now)
          (dispatchContract db plan)⟩) ∧
    dispatchContract db plan = buildSplitPayloadContract
      { idempotencyKey := dispatchIdempotencyKey plan
        splitPlanId := plan.id
        shop := plan.shop
        orderId := plan.orderId
        cartToken := plan.cartToken
        sourceLineGid := plan.sourceLineGid
        lineQuantity := plan.lineQuantity
        recipients := buildFulfillmentInstructions (joinAllocations db plan.allocations) } :=
  ⟨⟨_, rfl, rfl, rfl⟩,
    splitOps_dispatch_eq db sessionShop pid op now plan hpid hfind halloc hop, rfl⟩

/-- Witness for the amended C5: the explicit retry after the first send
appends a `split_plan.delivery_retried` event. -/
theorem claim_C5_witness :
    splitOpsAction demoDb3 demoShop ⟨some "p1", some "retry_3pl"⟩ 200 =
      (updatePlan demoDb3 (dispatchUpdated demoDb3 demoSentPlan "retry_3pl" 200),
        ⟨200, .planWithContract (dispatchUpdated demoDb3 demoSentPlan "retry_3pl" 200)
          (dispatchContract demoDb3 demoSentPlan)⟩) ∧
    (dispatchUpdated demoDb3 demoSentPlan "retry_3pl" 200).events.map
        SplitAuditEvent.eventType =
      demoSentPlan.events.map SplitAuditEvent.eventType ++
        ["split_plan.delivery_retried"] := by
  have h := claim_C5_delivery_event demoDb3 demoShop "p1" "retry_3pl" 200 demoSentPlan
    (by decide) (by decide) (by decide) (Or.inr rfl)
  exact ⟨h.2.1, by decide⟩

/-! ### Claim C7 -/

/-- C7: `ack_3pl` transitions `deliveryStatus` to `acked` unconditionally
given a plan found in the tenant of the caller (with allocations): there is no
precondition on the current delivery status — no `sent` attempt need have
preceded it — and the appended `split_plan.delivery_acked` event records the
prior delivery status. -/
theorem claim_C7_ack_unconditional (db : DB) (sessionShop pid : String) (now : Nat)
    (plan : SplitPlan) (hpid : pid ≠ "")
    (hfind : db.plans.find? (fun p => p.id == pid && p.shop == sessionShop) = some plan)
    (halloc : plan.allocations ≠ []) :
    splitOpsAction db sessionShop ⟨some pid, some "ack_3pl"⟩ now =
      (updatePlan db (ackUpdated plan), ⟨200, .planResult (ackUpdated plan)⟩) ∧
    (ackUpdated plan).deliveryStatus = "acked" ∧
    (ackUpdated plan).events = plan.events ++
      [⟨"split_plan.delivery_acked", .ackSnapshot plan.deliveryStatus⟩] :=
  ⟨splitOps_ack_eq db sessionShop pid now plan hpid hfind halloc, rfl, rfl⟩

/-- Witness for C7, scenario E: `ack_3pl` on plan `p1` while it is still
`pending` (never sent) is accepted and transitions it to `acked`. -/
theorem claim_C7_witness :
    demoPlan.deliveryStatus = "pending" ∧
    splitOpsAction demoDb2 demoShop ⟨some "p1", some "ack_3pl"⟩ 70 =
      (updatePlan demoDb2 demoAckedPlan, ⟨200, .planResult demoAckedPlan⟩) ∧
    demoAckedPlan.deliveryStatus = "acked" := by
  have h := claim_C7_ack_unconditional demoDb2 demoShop "p1" 70 demoPlan
    (by decide) (by decide) (by decide)
  exact ⟨rfl, h.1, rfl⟩

/-! ### Claim C8 -/

/-- C8: every plan-targeting operation — any split-ops operation, and PUT and
DELETE on the split-plans route — responds to a request naming a plan id that
no plan of the calling tenant has (be it a plan of another tenant or a
nonexistent one) with the same 404 "Split plan not found." and leaves the
database unchanged: the two cases are indistinguishable. -/
theorem claim_C8_tenant_isolation (db : DB) (sessionShop pid : String)
    (hpid : pid ≠ "")
    (hforeign : ∀ q ∈ db.plans, q.id = pid → q.shop ≠ sessionShop) :
    (∀ (op : String) (now : Nat), op ≠ "" →
      splitOpsAction db sessionShop ⟨some pid, some op⟩ now =
        (db, ⟨404, .errorMsg "Split plan not found."⟩)) ∧
    (∀ (payload : CreateSplitPlanPayload) (newPlanId : String), payload.id = some pid →
      splitPlansAction db sessionShop "PUT" payload newPlanId =
        (db, ⟨404, .errorMsg "Split plan not found."⟩)) ∧
    (∀ (payload : CreateSplitPlanPayload) (newPlanId : String), payload.id = some pid →
      splitPlansAction db sessionShop "DELETE" payload newPlanId =
        (db, ⟨404, .errorMsg "Split plan not found."⟩)) := by
  have hpidb : (pid == "") = false := beq_eq_false_iff_ne.mpr hpid
  have hfind : db.plans.find? (fun p => p.id == pid && p.shop == sessionShop) = none := by
    rw [List.find?_eq_none]
    intro q hq h
    simp only [Bool.and_eq_true, beq_iff_eq] at h
    exact hforeign q hq h.1 h.2
  refine ⟨?_, ?_, ?_⟩
  · intro op now hop
    have hopb : (op == "") = false := beq_eq_false_iff_ne.mpr hop
    simp [splitOpsAction, strBlank, hpidb, hopb, hfind]
  · intro payload newPlanId hid
    simp [splitPlansAction, strBlank, hid, hpidb, hfind]
  · intro payload newPlanId hid
    simp [splitPlansAction, strBlank, hid, hpidb, hfind]

/-- Witness for C8: a database holding only the foreign-tenant plan `p1`
answers 404 and stays unchanged for ops, PUT and DELETE naming `p1`. -/
theorem claim_C8_witness :
    splitOpsAction demoForeignDb demoShop ⟨some "p1", some "ack_3pl"⟩ 0 =
      (demoForeignDb, ⟨404, .errorMsg "Split plan not found."⟩) ∧
    splitPlansAction demoForeignDb demoShop "PUT" demoPutPayload "x1" =
      (demoForeignDb, ⟨404, .errorMsg "Split plan not found."⟩) ∧
    splitPlansAction demoForeignDb demoShop "DELETE" demoPutPayload "x1" =
      (demoForeignDb, ⟨404, .errorMsg "Split plan not found."⟩) := by
  have h := claim_C8_tenant_isolation demoForeignDb demoShop "p1" (by decide) (by decide)
  exact ⟨h.1 "ack_3pl" 0 (by decide), h.2.1 demoPutPayload "x1" rfl,
    h.2.2 demoPutPayload "x1" rfl⟩

/-! ### Claim C10 -/

theorem claim_C10_duplicate_recipients (db : DB) (sessionShop : String)
    (payload : CreateSplitPlanPayload) (newPlanId : String)
    (hdb : (db.recipients.map Recipient.id).Nodup)
    (hdup : ¬ ((payload.allocations.getD []).map (fun a => a.recipientKey)).Nodup)
    (hvalid : (validateRecipientAllocations payload.lineQuantity
      (payload.allocations.getD [])).valid = true)
    (hexists : ∀ k ∈ (payload.allocations.getD []).map (fun a => a.recipientKey),
      ∃ r ∈ db.recipients, r.id = k ∧ r.shop = sessionShop) :
    splitPlansAction db sessionShop "POST" payload newPlanId =
      (db, ⟨400, .errorMsg "Some recipients are missing or not accessible for this shop."⟩) ∧
    (∀ (pid : String) (plan : SplitPlan), payload.id = some pid → pid ≠ "" →
      db.plans.find? (fun p => p.id == pid && p.shop == sessionShop) = some plan →
      splitPlansAction db sessionShop "PUT" payload newPlanId =
        (db, ⟨400, .errorMsg "Some recipients are missing or not accessible for this shop."⟩)) := by
  have hlt := foundRecipients_length_lt sessionShop hdb hdup
  have hne : ((foundRecipients db sessionShop
      ((payload.allocations.getD []).map (fun a => a.recipientKey))).length !=
        ((payload.allocations.getD []).map (fun a => a.recipientKey)).length) = true := by
    simp only [bne_iff_ne, ne_eq]
    exact Nat.ne_of_lt hlt
  constructor
  · simp [splitPlansAction, hvalid, hne]
    simpa using Nat.ne_of_lt hlt
  · intro pid plan hid hpid hfind
    have hpidb : (pid == "") = false := beq_eq_false_iff_ne.mpr hpid
    simp [splitPlansAction, strBlank, hid, hpidb, hfind, hvalid, hne]
    simpa using Nat.ne_of_lt hlt

/-- Witness for C10: POST with allocations naming `r1` twice (1 + 1 against
line quantity 2) is rejected although `r1` exists and validation passes. -/
theorem claim_C10_witness :
    splitPlansAction demoDb1 demoShop "POST" demoDupPayload "p2" =
      (demoDb1, ⟨400, .errorMsg "Some recipients are missing or not accessible for this shop."⟩) :=
  (claim_C10_duplicate_recipients demoDb1 demoShop demoDupPayload "p2" (by decide)
    (by decide) (by decide) (by decide)).1

/-! ### Claim C6 -/

theorem claim_C6_counterexample :
    demoDbReady.plans.map SplitPlan.status = ["ready_for_fulfillment"] ∧
    demoWebhookResult.1.plans.map SplitPlan.status = ["order_created"] ∧
    ("ready_for_fulfillment" : String) ≠ "draft" ∧
    ("ready_for_fulfillment" : String) ≠ "order_created" := by decide

/-- C6 amended: `order_created` is entered only via the order-created
webhook — no split-ops, split-plans or recipients operation ever moves a plan
into `order_created` that was not already there — but the webhook sets every
status of every matched plan to `order_created` unconditionally, including plans in
later lifecycle states (`ready_for_fulfillment`, `fulfilled_partial`,
`fulfilled_complete`), which it moves back. -/
theorem claim_C6_order_created :
    (∀ (db : DB) (shop : String) (wp : OrderWebhookPayload) (p : SplitPlan),
      p ∈ db.plans → webhookMatch shop wp p = true →
        orderCreatedApply wp p ∈ (webhookAction db shop wp).1.plans ∧
        (orderCreatedApply wp p).status = "order_created") ∧
    (∀ (db : DB) (sessionShop : String) (payload : SplitOpsPayload) (now : Nat),
      ∀ p ∈ (splitOpsAction db sessionShop payload now).1.plans,
        p.status = "order_created" → ∃ q ∈ db.plans, q.status = "order_created") ∧
    (∀ (db : DB) (sessionShop method : String) (payload : CreateSplitPlanPayload)
        (newPlanId : String),
      ∀ p ∈ (splitPlansAction db sessionShop method payload newPlanId).1.plans,
        p.status = "order_created" → ∃ q ∈ db.plans, q.status = "order_created") ∧
    (∀ (db : DB) (sessionShop method : String) (payload : RecipientPayload)
        (newId : String),
      ∀ p ∈ (recipientsAction db sessionShop method payload newId).1.plans,
        p.status = "order_created" → ∃ q ∈ db.plans, q.status = "order_created") := by
  refine ⟨?_, ?_, ?_, ?_⟩
  · intro db shop wp p hp hmatch
    refine ⟨?_, rfl⟩
    have hguard : (strBlank wp.cart_token && strBlank wp.admin_graphql_api_id) = false := by
      unfold webhookMatch at hmatch
      simp only [Bool.and_eq_true, Bool.or_eq_true, Bool.not_eq_true'] at hmatch
      rcases hmatch.2 with ⟨h1, _⟩ | ⟨h1, _⟩ <;> simp [h1]
    unfold webhookAction
    rw [if_neg (by simp [hguard])]
    have hmem : p ∈ db.plans.filter (webhookMatch shop wp) :=
      List.mem_filter.mpr ⟨hp, hmatch⟩
    have hne : (db.plans.filter (webhookMatch shop wp)).isEmpty = false := by
      cases hfl : db.plans.filter (webhookMatch shop wp) with
      | nil => rw [hfl] at hmem; simp at hmem
      | cons a l => rfl
    rw [if_neg (by simp [hne])]
    show orderCreatedApply wp p ∈ db.plans.map
      (fun q => if webhookMatch shop wp q then orderCreatedApply wp q else q)
    refine List.mem_map.mpr ⟨p, hp, ?_⟩
    rw [if_pos hmatch]
  · intro db sessionShop payload now p hp hstatus
    rcases splitOps_status_origin hp with ⟨q, hq, hsq⟩ | h
    · exact ⟨q, hq, by rw [← hsq]; exact hstatus⟩
    · rcases h with h | h | h <;> rw [h] at hstatus <;> exact absurd hstatus (by decide)
  · intro db sessionShop method payload newPlanId p hp hstatus
    rcases splitPlans_status_origin hp with ⟨q, hq, hsq⟩ | h
    · exact ⟨q, hq, by rw [← hsq]; exact hstatus⟩
    · rw [h] at hstatus
      exact absurd hstatus (by decide)
  · intro db sessionShop method payload newId p hp hstatus
    rw [recipientsAction_plans] at hp
    exact ⟨p, hp, hstatus⟩

/-- Witness for the amended C6: the webhook matches the ready plan `p1` by
cart token and moves it (back) to `order_created`. -/
theorem claim_C6_witness :
    demoReadyPlan.status = "ready_for_fulfillment" ∧
    orderCreatedApply demoWebhookPayload demoReadyPlan ∈ demoWebhookResult.1.plans ∧
    (orderCreatedApply demoWebhookPayload demoReadyPlan).status = "order_created" := by
  have h := claim_C6_order_created.1 demoDbReady demoShop demoWebhookPayload demoReadyPlan
    (by decide) (by decide)
  exact ⟨by decide, h.1, h.2⟩
